import Mathlib

/-!
Shallow embedding of the attendance engine of the
`attendance-system-feature-automation` repository
(`src/attendance/models.py`, `src/attendance/utils/salary_helpers.py`,
`src/attendance/utils/face_recognition_helpers.py`, `src/attendance/views.py`).

Modelling conventions:
- Instants are `Int` seconds on a single absolute timeline.  Every datetime in
  the source is converted to the business timezone Asia/Dhaka (a fixed-offset
  zone, no DST), so local wall-clock arithmetic is plain integer arithmetic:
  the instant of `datetime.combine(date, time)` localized to Dhaka is the
  instant of the local midnight of `date` plus the seconds-of-day of `time`.
- Durations (`timedelta`) are `Int` seconds.
- Python `Decimal` amounts and hour thresholds are modelled as exact `Rat`
  (the values appearing here are decimals well within `Decimal`'s 28-digit
  context, so no rounding occurs in the source on the inputs modelled).
- Euclidean face distances are compared through their squares: distance
  `d ≤ 0.5` is embedded as `d² ≤ 1/4`, and `argmin` over distances equals
  `argmin` over squared distances, both because squaring is monotone on
  nonnegative reals; this keeps everything inside `Rat`.
-/

namespace AttendanceSys

/-- The status strings of `AttendanceRecord.status`
(`src/attendance/models.py`, `status` choices). -/
inductive Status where
  | Present
  | EarlyLeave
  | Absent
  | HalfDay
  | OnLeave
  | Holiday
  | Pending
  | OffDay
deriving DecidableEq, Repr

/-- `Shift` (`src/attendance/models.py`): shift timing and thresholds.
`shift_start` / `shift_end` are seconds after local midnight; the hour
thresholds are the `Decimal` fields as exact rationals;
`allowed_late_minutes` is the `PositiveIntegerField`. -/
structure Shift where
  shift_start : Int
  shift_end : Int
  half_day_hours : Rat
  present_hours : Rat
  allowed_late_minutes : Nat
  enable_late_status : Bool
deriving DecidableEq, Repr

/-- `AttendanceRecord` (`src/attendance/models.py`): the per-identity,
per-date ledger row.  `dateMidnight` is the instant of local (Dhaka)
midnight of the record's calendar `date`; `shift` is the frozen policy
snapshot (`null=True`); times, device, status and late duration are the
nullable columns. -/
structure AttRecord where
  dateMidnight : Int
  shift : Option Shift
  checkin_time : Option Int
  checkout_time : Option Int
  device_id : Option String
  status : Option Status
  late_duration : Option Int
deriving DecidableEq, Repr

/-- `AttendanceRecord.effective_shift` (`models.py`): the record's frozen
shift if present, else the currently active shift (`get_active_shift()`),
which is passed in as `active`. -/
def effectiveShift (r : AttRecord) (active : Option Shift) : Option Shift :=
  match r.shift with
  | some s => some s
  | none => active

/-- `AttendanceRecord._compute_late_duration` (`models.py` lines 372-409):
`None` when the check-in or the shift is missing; otherwise the excess of
the check-in instant over `shift start + allowed_late_minutes` on the
record's date, and exactly zero when the check-in is not strictly after
that allowed-by instant. -/
def computeLateDuration (r : AttRecord) (shift : Option Shift) : Option Int :=
  match r.checkin_time, shift with
  | some ci, some s =>
    let shift_start_dt := r.dateMidnight + s.shift_start
    let allowed_end := shift_start_dt + 60 * (s.allowed_late_minutes : Int)
    if allowed_end < ci then some (ci - allowed_end) else some 0
  | _, _ => none

/-- `AttendanceRecord._is_late` (`models.py`): true only when the computed
late duration exists and is strictly positive (`timedelta(0)` is falsy in
the Python conjunction, so zero is not late). -/
def isLate (r : AttRecord) (shift : Option Shift) : Bool :=
  match computeLateDuration r shift with
  | some d => decide (0 < d)
  | none => false

/-- `AttendanceRecord.is_late_indicator` (`models.py`): `_is_late` on the
effective shift, `False` when no shift resolves. -/
def isLateIndicator (r : AttRecord) (active : Option Shift) : Bool :=
  match effectiveShift r active with
  | some s => isLate r (some s)
  | none => false

/-- Worked hours between two instants:
`(checkout - checkin).total_seconds() / 3600.0` (`models.py` line 454). -/
def workedHours (ci co : Int) : Rat := ((co - ci : Int) : Rat) / 3600

/-- `AttendanceRecord.compute_status` (`models.py` lines 426-462).  The
Python method assigns `self.late_duration` and returns the status string;
both effects are returned here as a pair `(status, late_duration)`. -/
def computeStatusLate (r : AttRecord) (active : Option Shift) :
    Status × Option Int :=
  let shift := effectiveShift r active
  let late_dur := computeLateDuration r shift
  let st :=
    match r.checkin_time, r.checkout_time with
    | none, none => Status.Absent
    | some _, none => Status.Pending
    | none, some _ => Status.Pending
    | some ci, some co =>
      match shift with
      | some s =>
        if s.present_hours ≤ workedHours ci co then Status.Present
        else if s.half_day_hours ≤ workedHours ci co then Status.HalfDay
        else Status.EarlyLeave
      | none => Status.EarlyLeave
  (st, late_dur)

/-- The manually-controlled statuses skipped by the save-time
recomputation (`models.py` line 482). -/
def manualStatuses : List Status := [Status.OnLeave, Status.Holiday, Status.OffDay]

/-- `AttendanceRecord.save` (`models.py` lines 464-495), the pure part:
snapshot the active shift for a new record with no explicit shift, then
recompute status and late duration unless the status is manual, then
backfill a missing late duration.  The payroll trigger fired after the
row write is modelled separately (`saveWithTrigger`). -/
def saveRecord (r : AttRecord) (active : Option Shift) (isNew : Bool) :
    AttRecord :=
  let r1 := if isNew && r.shift.isNone then { r with shift := active } else r
  let r2 :=
    match r1.status with
    | some s =>
      if s ∈ manualStatuses then r1
      else
        let p := computeStatusLate r1 active
        { r1 with status := some p.1, late_duration := p.2 }
    | none =>
      let p := computeStatusLate r1 active
      { r1 with status := some p.1, late_duration := p.2 }
  if r2.late_duration.isNone then
    { r2 with late_duration := computeLateDuration r2 (effectiveShift r2 active) }
  else r2

/-! ## Biometric matcher (`face_recognition_helpers.find_best_match`) -/

/-- Squared Euclidean distance between two embedding vectors
(`face_recognition.face_distance` squared; see the square-encoding note in
the file header). -/
def sqDist (a b : List Rat) : Rat :=
  ((List.zipWith (fun x y => x - y) a b).map (fun x => x * x)).sum

/-- Squared tolerance: `compare_faces(..., tolerance=0.5)` accepts a
candidate when its distance is at most `0.5`, i.e. squared distance at
most `1/4`. -/
def tolSq : Rat := 1 / 4

/-- Failure modes of `find_best_match`: an empty registry, or no candidate
within tolerance. -/
inductive MatchFailure where
  | noEnrollments
  | notRecognized
deriving DecidableEq, Repr

/-- First index of the minimum, auxiliary scan: `np.argmin` keeps the
earliest index on ties, so only a strictly smaller distance replaces the
current best. -/
def argminAux : List Rat → Nat → Nat → Rat → Nat
  | [], _, best, _ => best
  | d :: ds, i, best, bestd =>
    if d < bestd then argminAux ds (i + 1) i d
    else argminAux ds (i + 1) best bestd

/-- `np.argmin` over a distance list (first index achieving the minimum). -/
def argminIdx : List Rat → Nat
  | [] => 0
  | d :: ds => argminAux ds 1 0 d

/-- `find_best_match(known_encodings, employees, encoding)`
(`face_recognition_helpers.py` lines 107-150): fail on an empty registry;
compute all (squared) distances; fail when none is within tolerance; else
return the employee at the argmin index.  Employees are identified by a
`Nat` id; the two lists are parallel as produced by
`load_known_encodings`. -/
def findBestMatch (known_encodings : List (List Rat)) (employees : List Nat)
    (encoding : List Rat) : Except MatchFailure Nat :=
  match known_encodings with
  | [] => Except.error MatchFailure.noEnrollments
  | _ :: _ =>
    let distances := known_encodings.map (fun v => sqDist v encoding)
    let matchFlags := distances.map (fun d => decide (d ≤ tolSq))
    if matchFlags.any (fun m => m) then
      Except.ok (employees.getD (argminIdx distances) 0)
    else
      Except.error MatchFailure.notRecognized

/-! ## Biometric event state machine
(`face_recognition_helpers.mark_attendance` and the cooldown gate in
`views.face_attendance_api`) -/

/-- The `check_type` values returned by `mark_attendance`. -/
inductive CheckType where
  | IN
  | OUT
  | NONE
deriving DecidableEq, Repr

/-- `record.device_id = device_id or record.device_id`: the request device
id is kept only when non-empty (the empty string is falsy); `none` models
an empty/absent request device id. -/
def devUpdate (d : Option String) (old : Option String) : Option String :=
  match d with
  | some s => some s
  | none => old

/-- A record as produced by `get_or_create` defaults: only employee and
date set, every other column at its null default. -/
def freshRecord (dateMid : Int) : AttRecord :=
  { dateMidnight := dateMid, shift := none, checkin_time := none,
    checkout_time := none, device_id := none, status := none,
    late_duration := none }

/-- `mark_attendance(employee, device_id, image_file)`
(`face_recognition_helpers.py` lines 153-223) for an event at instant `T`
on the day with midnight `dateMid`: get-or-create today's record (the
create path runs `save` on a fresh record), then set check-in on first
event, check-out on second, and report `NONE` without saving otherwise. -/
def markAttendance (st : Option AttRecord) (T dateMid : Int)
    (d : Option String) (active : Option Shift) : CheckType × AttRecord :=
  let record :=
    match st with
    | some r => r
    | none => saveRecord (freshRecord dateMid) active true
  match record.checkin_time with
  | none =>
    let r := { record with checkin_time := some T,
                           device_id := devUpdate d record.device_id }
    (CheckType.IN, saveRecord r active false)
  | some _ =>
    match record.checkout_time with
    | none =>
      let r := { record with checkout_time := some T,
                             device_id := devUpdate d record.device_id }
      (CheckType.OUT, saveRecord r active false)
    | some _ => (CheckType.NONE, record)

/-- The responses of `face_attendance_api` after a successful recognition
(`views.py` lines 181-218). -/
inductive ApiResult where
  | cooldown (minutes_remaining : Int)
  | checkIn
  | checkOut
  | alreadyComplete
deriving DecidableEq, Repr

/-- Map a `mark_attendance` check type to the API response shape. -/
def apiOfCheck : CheckType × AttRecord → ApiResult × Option AttRecord
  | (CheckType.IN, r) => (ApiResult.checkIn, some r)
  | (CheckType.OUT, r) => (ApiResult.checkOut, some r)
  | (CheckType.NONE, r) => (ApiResult.alreadyComplete, some r)

/-- The post-recognition tail of `face_attendance_api` (`views.py` lines
181-218): if today's record has a check-in less than one hour old, answer
`cooldown` with `60 - int(elapsed_seconds/60)` minutes remaining (Python
`int()` truncates toward zero, hence `Int.tdiv`) and change nothing;
otherwise run `mark_attendance`. -/
def faceAttendanceApi (st : Option AttRecord) (T dateMid : Int)
    (d : Option String) (active : Option Shift) :
    ApiResult × Option AttRecord :=
  match st with
  | some r =>
    match r.checkin_time with
    | some ci =>
      if T - ci < 3600 then
        (ApiResult.cooldown (60 - Int.tdiv (T - ci) 60), some r)
      else
        apiOfCheck (markAttendance (some r) T dateMid d active)
    | none => apiOfCheck (markAttendance (some r) T dateMid d active)
  | none => apiOfCheck (markAttendance none T dateMid d active)

/-! ## Payroll adjuster (`salary_helpers.py` and
`AttendanceRecord._trigger_salary_recalculation`) -/

/-- A record skipped by the payroll scan:
`record.status in ['Holiday', 'Off Day']`. -/
def isSkipped (r : AttRecord) : Bool :=
  r.status = some Status.Holiday || r.status = some Status.OffDay

/-- Count of problematic (late) days over a month's records:
non-skipped records with a positive late indicator. -/
def problematicDays (records : List AttRecord) (active : Option Shift) : Nat :=
  (records.filter (fun r => !isSkipped r && isLateIndicator r active)).length

/-- Count of counted working days: non-skipped records. -/
def totalWorkingDays (records : List AttRecord) : Nat :=
  (records.filter (fun r => !isSkipped r)).length

/-- `all(record.status == 'Present' for record in records if record.status
not in ['Holiday', 'Off Day'])`. -/
def allPresent (records : List AttRecord) : Bool :=
  (records.filter (fun r => !isSkipped r)).all
    (fun r => r.status = some Status.Present)

/-- `calculate_monthly_salary_adjustments(employee, year, month)`
(`salary_helpers.py` lines 12-65): scan the month's records for the
identity, count problematic (late) days and working days, and return
`(bonus_amount, fine_amount, problematic_days)`.  The record query is the
`records` list; `salary` is `employee.monthly_salary`. -/
def calculateMonthly (salary : Rat) (records : List AttRecord)
    (active : Option Shift) : Rat × Rat × Nat :=
  let problematic_days := problematicDays records active
  let total_working_days := totalWorkingDays records
  let fine_amount : Rat :=
    if 3 ≤ problematic_days then
      let fine_groups := problematic_days / 3
      let daily_salary := salary / 30
      daily_salary * (fine_groups : Rat)
    else 0
  let bonus_amount : Rat :=
    if problematic_days = 0 ∧ allPresent records = true ∧
        0 < total_working_days then 1000
    else 0
  (bonus_amount, fine_amount, problematic_days)

/-- The automatic adjustment rows owned by the engine for one identity and
month: the upsert/delete logic is keyed by the two fixed reasons, so the
state is the optional amount of the automatic "Attendance Issues Fine"
row and of the automatic "100% On Time Bonus" row. -/
structure AdjState where
  fineRow : Option Rat
  bonusRow : Option Rat
deriving DecidableEq, Repr

/-- The shared upsert/delete tail of both recompute paths: when the
computed amount is positive, create the row or update it to that amount
(either way the row afterwards holds the computed amount); otherwise
delete the row if it exists (either way no row afterwards). -/
def upsertRows (fine_amount bonus_amount : Rat) : AdjState :=
  { fineRow := if 0 < fine_amount then some fine_amount else none,
    bonusRow := if 0 < bonus_amount then some bonus_amount else none }

/-- The per-employee body of `process_monthly_salary_adjustments`
(`salary_helpers.py` lines 68-162): compute the amounts with
`calculate_monthly_salary_adjustments` and upsert/delete the two
automatic rows. -/
def processEmployeeAdjustments (salary : Rat) (records : List AttRecord)
    (active : Option Shift) (st : AdjState) : AdjState :=
  let c := calculateMonthly salary records active
  let bonus_amount := c.1
  let fine_amount := c.2.1
  let _ := st
  upsertRows fine_amount bonus_amount

/-- `AttendanceRecord._trigger_salary_recalculation` (`models.py` lines
500-606): the reactive per-save recompute.  It re-derives late and
working day counts over the month's records with the same loop as the
bulk path and applies the same upsert/delete logic. -/
def triggerSalaryRecalculation (salary : Rat) (records : List AttRecord)
    (active : Option Shift) (st : AdjState) : AdjState :=
  let late_days := problematicDays records active
  let total_working_days := totalWorkingDays records
  let fine_amount : Rat :=
    if 3 ≤ late_days then
      let fine_groups := late_days / 3
      let daily_salary := salary / 30
      daily_salary * (fine_groups : Rat)
    else 0
  let all_present := allPresent records
  let bonus_amount : Rat :=
    if late_days = 0 ∧ all_present = true ∧ 0 < total_working_days then 1000
    else 0
  let _ := st
  upsertRows fine_amount bonus_amount

/-- Number of automatic rows created, deleted or changed in value between
two adjustment states. -/
def rowMutations (a b : AdjState) : Nat :=
  (if a.fineRow = b.fineRow then 0 else 1) +
    (if a.bonusRow = b.bonusRow then 0 else 1)

/-- `AttendanceRecord.save` together with its reactive payroll trigger:
the row write happens first, then `_trigger_salary_recalculation` runs
with its body inside `try/except` (`models.py` lines 510-606), so a
recompute failure is caught and the save still returns the persisted
record.  The recompute is abstracted as a fallible function on the
adjustment state; on failure the adjustment state is left as it was. -/
def saveWithTrigger (r : AttRecord) (active : Option Shift) (isNew : Bool)
    (recompute : AdjState → Except String AdjState) (st : AdjState) :
    Except String (AttRecord × AdjState) :=
  let saved := saveRecord r active isNew
  match recompute st with
  | Except.ok st2 => Except.ok (saved, st2)
  | Except.error _ => Except.ok (saved, st)

/-! ## Holiday batch processor (`BulkHoliday`, `models.py` lines 642-798) -/

/-- A ledger row: identity, calendar day (as a day index; the record's
`dateMidnight` is `86400 * day`), and the record. -/
structure LEntry where
  emp : Nat
  day : Int
  row : AttRecord
deriving DecidableEq, Repr

/-- `AttendanceRecord.objects.filter(employee=e, date=d).first() is not
None`. -/
def hasRecord (L : List LEntry) (e : Nat) (d : Int) : Bool :=
  L.any (fun x => x.emp = e && x.day = d)

/-- The record created by holiday expansion:
`AttendanceRecord.objects.create(employee=e, date=d, status='Holiday')`,
which runs `save` on creation (the manual `Holiday` status is preserved
and the active shift is snapshotted). -/
def holidayEntry (e : Nat) (d : Int) (active : Option Shift) : LEntry :=
  { emp := e, day := d,
    row := saveRecord { freshRecord (86400 * d) with
                         status := some Status.Holiday } active true }

/-- Inner loop of `BulkHoliday.process_holiday_records`: for one date,
create a Holiday record for each in-scope employee lacking any record. -/
def expandEmps (d : Int) (active : Option Shift) :
    List Nat → List LEntry → List LEntry
  | [], L => L
  | e :: es, L =>
    expandEmps d active es
      (if hasRecord L e d then L else L ++ [holidayEntry e d active])

/-- Outer loop of `BulkHoliday.process_holiday_records`: iterate the dates
of the inclusive range. -/
def expandDates (emps : List Nat) (active : Option Shift) :
    List Int → List LEntry → List LEntry
  | [], L => L
  | d :: ds, L => expandDates emps active ds (expandEmps d active emps L)

/-- The inclusive day range `start_date .. end_date` walked by the
`while current_date <= self.end_date` loops. -/
def dateRange (startD endD : Int) : List Int :=
  (List.range (endD + 1 - startD).toNat).map (fun (i : Nat) => startD + (i : Int))

/-- `BulkHoliday.process_holiday_records` (`models.py` lines 695-736):
no-op for an inactive definition, otherwise the date×employee expansion. -/
def processHolidayRecords (isActive : Bool) (emps : List Nat)
    (startD endD : Int) (active : Option Shift) (L : List LEntry) :
    List LEntry :=
  if isActive then expandDates emps active (dateRange startD endD) L else L

/-- Predicate for the rows deleted by `BulkHoliday.remove_holiday_records`:
in-scope employee, in-range date, status exactly `Holiday`. -/
def inHolidayScope (emps : List Nat) (dates : List Int) (x : LEntry) : Bool :=
  emps.contains x.emp && dates.contains x.day &&
    x.row.status = some Status.Holiday

/-- `BulkHoliday.remove_holiday_records` (`models.py` lines 757-772):
delete every record with an in-scope employee, an in-range date and
status exactly `Holiday`. -/
def removeHolidayRecords (emps : List Nat) (startD endD : Int)
    (L : List LEntry) : List LEntry :=
  L.filter (fun x => !inHolidayScope emps (dateRange startD endD) x)

/-- Following the claim's words (spec §4.4 step 3), for comparison with
`computeStatusLate`: with both timestamps present, "a negative difference
is treated as 0 worked hours, not an error", then the threshold cascade
runs on the clamped value. -/
def claimClampedStatus (ci co : Int) (s : Shift) : Status :=
  let w := max (workedHours ci co) 0
  if s.present_hours ≤ w then Status.Present
  else if s.half_day_hours ≤ w then Status.HalfDay
  else Status.EarlyLeave

/-! ## Helper lemmas about `saveRecord` -/

theorem saveRecord_checkin_time (r : AttRecord) (active : Option Shift)
    (isNew : Bool) : (saveRecord r active isNew).checkin_time = r.checkin_time := by
  unfold saveRecord
  dsimp only
  split <;> split <;> (try split) <;> (try split) <;> simp_all

theorem saveRecord_checkout_time (r : AttRecord) (active : Option Shift)
    (isNew : Bool) : (saveRecord r active isNew).checkout_time = r.checkout_time := by
  unfold saveRecord
  dsimp only
  split <;> split <;> (try split) <;> (try split) <;> simp_all

theorem saveRecord_device_id (r : AttRecord) (active : Option Shift)
    (isNew : Bool) : (saveRecord r active isNew).device_id = r.device_id := by
  unfold saveRecord
  dsimp only
  split <;> split <;> (try split) <;> (try split) <;> simp_all

theorem saveRecord_status_not_manual (r : AttRecord) (active : Option Shift)
    (h : ∀ s, r.status = some s → s ∉ manualStatuses) :
    (saveRecord r active false).status = some (computeStatusLate r active).1 := by
  unfold saveRecord
  dsimp only
  have hr1 : (if false && r.shift.isNone then { r with shift := active } else r) = r := by
    simp
  rw [hr1]
  cases hst : r.status with
  | none => simp only [hst]; split <;> simp
  | some s =>
    have hnot : s ∉ manualStatuses := h s hst
    simp only [hst, if_neg hnot]
    split <;> simp

theorem saveRecord_status_manual (r : AttRecord) (active : Option Shift)
    (isNew : Bool) (s : Status) (hst : r.status = some s)
    (h : s ∈ manualStatuses) :
    (saveRecord r active isNew).status = r.status := by
  unfold saveRecord
  dsimp only
  split <;> simp_all <;> split <;> simp_all

/-! ## Claim C3 -/

/-- Claim C3: the late-duration calculation is `None` when the check-in
instant or the resolved shift policy is absent; otherwise, with
allowed-by = shift start on the record's date plus the grace minutes, it
is exactly `check-in − allowed-by` when check-in is strictly after
allowed-by and exactly zero otherwise; whenever defined it is
non-negative. -/
theorem C3_late_duration_calculation (r : AttRecord) (sh : Option Shift) :
    (r.checkin_time = none → computeLateDuration r sh = none) ∧
    (sh = none → computeLateDuration r sh = none) ∧
    (∀ ci s, r.checkin_time = some ci → sh = some s →
      (r.dateMidnight + s.shift_start + 60 * (s.allowed_late_minutes : Int) < ci →
        computeLateDuration r sh =
          some (ci - (r.dateMidnight + s.shift_start +
            60 * (s.allowed_late_minutes : Int)))) ∧
      (ci ≤ r.dateMidnight + s.shift_start + 60 * (s.allowed_late_minutes : Int) →
        computeLateDuration r sh = some 0)) ∧
    (∀ dd : Int, computeLateDuration r sh = some dd → 0 ≤ dd) := by
  refine ⟨?_, ?_, ?_, ?_⟩
  · intro h
    cases sh <;> simp [computeLateDuration, h]
  · intro h
    subst h
    cases hc : r.checkin_time <;> simp [computeLateDuration, hc]
  · intro ci s hci hsh
    subst hsh
    constructor
    · intro hlt
      simp only [computeLateDuration, hci]
      rw [if_pos hlt]
    · intro hle
      simp only [computeLateDuration, hci]
      rw [if_neg (by omega)]
  · intro dd
    unfold computeLateDuration
    cases hc : r.checkin_time with
    | none => simp
    | some ci =>
      cases hs : sh with
      | none => simp
      | some s =>
        simp only []
        split
        · intro h
          have := Option.some.inj h
          omega
        · intro h
          have := Option.some.inj h
          omega

/-- Claim C3 witness: with shift start 09:00, grace 15 minutes on the day
with midnight 0 (allowed-by instant 33300), a check-in at exactly 33300
yields zero late duration and a check-in one second later yields exactly
one second. -/
theorem C3_late_duration_calculation_witness :
    computeLateDuration
      { dateMidnight := 0, shift := none, checkin_time := some 33300,
        checkout_time := none, device_id := none, status := none,
        late_duration := none }
      (some { shift_start := 32400, shift_end := 61200, half_day_hours := 4,
              present_hours := 8, allowed_late_minutes := 15,
              enable_late_status := true }) = some 0 ∧
    computeLateDuration
      { dateMidnight := 0, shift := none, checkin_time := some 33301,
        checkout_time := none, device_id := none, status := none,
        late_duration := none }
      (some { shift_start := 32400, shift_end := 61200, half_day_hours := 4,
              present_hours := 8, allowed_late_minutes := 15,
              enable_late_status := true }) = some 1 := by
  constructor
  · exact ((C3_late_duration_calculation
      { dateMidnight := 0, shift := none, checkin_time := some 33300,
        checkout_time := none, device_id := none, status := none,
        late_duration := none }
      (some { shift_start := 32400, shift_end := 61200, half_day_hours := 4,
              present_hours := 8, allowed_late_minutes := 15,
              enable_late_status := true })).2.2.1 33300 _ rfl rfl).2 (by norm_num)
  · have h := ((C3_late_duration_calculation
      { dateMidnight := 0, shift := none, checkin_time := some 33301,
        checkout_time := none, device_id := none, status := none,
        late_duration := none }
      (some { shift_start := 32400, shift_end := 61200, half_day_hours := 4,
              present_hours := 8, allowed_late_minutes := 15,
              enable_late_status := true })).2.2.1 33301 _ rfl rfl).1 (by norm_num)
    rw [h]
    norm_num

/-! ## Claim C2 -/

/-- Claim C2 counterexample: with a resolvable shift whose half-day
threshold is 0 hours and a record whose check-out (instant 3600) precedes
its check-in (instant 7200), the code classifies by the raw worked hours
(-1) and yields `Early Leave`, while the claim's "negative difference is
treated as 0 worked hours" rule yields `Half Day` (0 ≥ 0). -/
theorem C2_status_priority_counterexample :
    (computeStatusLate
      { dateMidnight := 0,
        shift := some { shift_start := 32400, shift_end := 61200,
                        half_day_hours := 0, present_hours := 8,
                        allowed_late_minutes := 0, enable_late_status := true },
        checkin_time := some 7200, checkout_time := some 3600,
        device_id := none, status := none, late_duration := none }
      none).1 = Status.EarlyLeave ∧
    claimClampedStatus 7200 3600
      { shift_start := 32400, shift_end := 61200, half_day_hours := 0,
        present_hours := 8, allowed_late_minutes := 0,
        enable_late_status := true } = Status.HalfDay := by
  constructor
  · have hw : workedHours 7200 3600 = -1 := by
      norm_num [workedHours]
    simp [computeStatusLate, effectiveShift, hw]
    norm_num
  · have hw : workedHours 7200 3600 = -1 := by
      norm_num [workedHours]
    simp [claimClampedStatus, hw]

/-- Claim C2 (amended): for every attendance record with a resolvable
shift policy the derived status follows the exact priority order — no
check-in and no check-out gives Absent, exactly one timestamp gives
Pending, with both present the raw worked hours (check-out − check-in,
NOT clamped at 0 when negative) are cascaded through the present and
half-day thresholds — and neither the stored late duration nor any
lateness input changes the classification. -/
theorem C2_status_priority (r : AttRecord) (active : Option Shift) (s : Shift)
    (hs : effectiveShift r active = some s) :
    (r.checkin_time = none → r.checkout_time = none →
      (computeStatusLate r active).1 = Status.Absent) ∧
    (∀ ci, r.checkin_time = some ci → r.checkout_time = none →
      (computeStatusLate r active).1 = Status.Pending) ∧
    (∀ co, r.checkin_time = none → r.checkout_time = some co →
      (computeStatusLate r active).1 = Status.Pending) ∧
    (∀ ci co, r.checkin_time = some ci → r.checkout_time = some co →
      (computeStatusLate r active).1 =
        (if s.present_hours ≤ workedHours ci co then Status.Present
         else if s.half_day_hours ≤ workedHours ci co then Status.HalfDay
         else Status.EarlyLeave)) ∧
    (∀ x, (computeStatusLate { r with late_duration := x } active).1 =
      (computeStatusLate r active).1) := by
  refine ⟨?_, ?_, ?_, ?_, ?_⟩
  · intro h1 h2
    simp [computeStatusLate, h1, h2]
  · intro ci h1 h2
    simp [computeStatusLate, h1, h2]
  · intro co h1 h2
    simp [computeStatusLate, h1, h2]
  · intro ci co h1 h2
    simp [computeStatusLate, h1, h2, hs]
  · intro x
    simp [computeStatusLate, effectiveShift]

/-- Claim C2 witness: worked hours 8 with present threshold 8 classifies
as Present (spec §8's example), via the amended status cascade. -/
theorem C2_status_priority_witness :
    (computeStatusLate
      { dateMidnight := 0,
        shift := some { shift_start := 32400, shift_end := 61200,
                        half_day_hours := 4, present_hours := 8,
                        allowed_late_minutes := 0, enable_late_status := true },
        checkin_time := some 0, checkout_time := some 28800,
        device_id := none, status := none, late_duration := none }
      none).1 = Status.Present := by
  have h := (C2_status_priority
    { dateMidnight := 0,
      shift := some { shift_start := 32400, shift_end := 61200,
                      half_day_hours := 4, present_hours := 8,
                      allowed_late_minutes := 0, enable_late_status := true },
      checkin_time := some 0, checkout_time := some 28800,
      device_id := none, status := none, late_duration := none }
    none _ rfl).2.2.2.1 0 28800 rfl rfl
  rw [h]
  norm_num [workedHours]

/-! ## Claim C9 -/

/-- Claim C9 counterexample: a record with manual status `Holiday`, a
late check-in and an unset late duration.  The save preserves the status
but does NOT leave the late-duration field untouched: the `None` late
duration is backfilled from the check-in and shift (here to 1600
seconds), contradicting "the late-duration field is exactly what it was
before the save". -/
theorem C9_manual_status_sticky_counterexample :
    let r : AttRecord :=
      { dateMidnight := 0,
        shift := some { shift_start := 32400, shift_end := 61200,
                        half_day_hours := 4, present_hours := 8,
                        allowed_late_minutes := 0, enable_late_status := true },
        checkin_time := some 34000, checkout_time := none,
        device_id := none, status := some Status.Holiday,
        late_duration := none }
    r.late_duration = none ∧ r.status = some Status.Holiday ∧
      (saveRecord r none false).late_duration = some 1600 := by
  refine ⟨rfl, rfl, ?_⟩
  decide

/-- Claim C9 (amended): saving a record whose status is in the
manually-controlled set {On Leave, Holiday, Off Day} preserves that
status verbatim and skips the status recomputation, and preserves the
timestamps; the late-duration field is preserved whenever it was already
set (a `None` late duration may still be backfilled from check-in and
shift). -/
theorem C9_manual_status_sticky (r : AttRecord) (active : Option Shift)
    (isNew : Bool) (s : Status) (hst : r.status = some s)
    (hm : s ∈ manualStatuses) :
    (saveRecord r active isNew).status = r.status ∧
    (saveRecord r active isNew).checkin_time = r.checkin_time ∧
    (saveRecord r active isNew).checkout_time = r.checkout_time ∧
    (∀ x, r.late_duration = some x →
      (saveRecord r active isNew).late_duration = some x) := by
  refine ⟨saveRecord_status_manual r active isNew s hst hm,
    saveRecord_checkin_time r active isNew,
    saveRecord_checkout_time r active isNew, ?_⟩
  intro x hx
  unfold saveRecord
  dsimp only
  split <;> simp_all

/-- Claim C9 witness: an `On Leave` record with late duration already set
to 5 seconds keeps both its status and its late duration across a save. -/
theorem C9_manual_status_sticky_witness :
    (saveRecord
      { dateMidnight := 0, shift := none, checkin_time := none,
        checkout_time := none, device_id := none,
        status := some Status.OnLeave, late_duration := some 5 }
      none false).status = some Status.OnLeave ∧
    (saveRecord
      { dateMidnight := 0, shift := none, checkin_time := none,
        checkout_time := none, device_id := none,
        status := some Status.OnLeave, late_duration := some 5 }
      none false).late_duration = some 5 := by
  have h := C9_manual_status_sticky
    { dateMidnight := 0, shift := none, checkin_time := none,
      checkout_time := none, device_id := none,
      status := some Status.OnLeave, late_duration := some 5 }
    none false Status.OnLeave rfl (by decide)
  exact ⟨by rw [h.1], h.2.2.2 5 rfl⟩

/-! ## Claim C8 -/

/-- Claim C8: a failure raised inside the reactive payroll recompute
triggered by an attendance save never propagates (the save always
returns `ok`) and never rolls back the attendance write: the persisted
record is exactly `saveRecord r active isNew`, independent of whether
the recompute function succeeds or throws. -/
theorem C8_trigger_failure_isolated (r : AttRecord) (active : Option Shift)
    (isNew : Bool) (f : AdjState → Except String AdjState) (st : AdjState) :
    ∃ st2, saveWithTrigger r active isNew f st =
      Except.ok (saveRecord r active isNew, st2) := by
  cases h : f st with
  | ok s2 => exact ⟨s2, by simp [saveWithTrigger, h]⟩
  | error e => exact ⟨st, by simp [saveWithTrigger, h]⟩

/-! ## Claim C10 -/

/-- Claim C10: after any payroll recompute (the reactive per-save trigger
or the bulk per-employee pass), the automatic fine row and the automatic
bonus row never coexist: the fine requires at least 3 problematic days
while the bonus requires zero, so at most one of the two rows exists. -/
theorem C10_bonus_fine_mutually_exclusive (salary : Rat)
    (records : List AttRecord) (active : Option Shift) (st : AdjState) :
    ¬((triggerSalaryRecalculation salary records active st).fineRow ≠ none ∧
      (triggerSalaryRecalculation salary records active st).bonusRow ≠ none) ∧
    ¬((processEmployeeAdjustments salary records active st).fineRow ≠ none ∧
      (processEmployeeAdjustments salary records active st).bonusRow ≠ none) := by
  constructor
  · rintro ⟨hf, hb⟩
    by_cases hp : problematicDays records active = 0
    · have h3 : ¬ (3:Nat) ≤ problematicDays records active := by omega
      simp [triggerSalaryRecalculation, upsertRows, h3] at hf
    · simp [triggerSalaryRecalculation, upsertRows, hp] at hb
  · rintro ⟨hf, hb⟩
    by_cases hp : problematicDays records active = 0
    · have h3 : ¬ (3:Nat) ≤ problematicDays records active := by omega
      simp [processEmployeeAdjustments, calculateMonthly, upsertRows, h3] at hf
    · simp [processEmployeeAdjustments, calculateMonthly, upsertRows, hp] at hb

/-! ## Claim C6 -/

/-- Claim C6: the payroll recompute is idempotent for both the reactive
trigger and the bulk per-employee pass: with the month's records
unchanged, running it twice yields the same adjustment state as running
it once, and the second run performs zero row mutations (no row created,
deleted, or changed in value). -/
theorem C6_recompute_idempotent (salary : Rat) (records : List AttRecord)
    (active : Option Shift) (st : AdjState) :
    triggerSalaryRecalculation salary records active
        (triggerSalaryRecalculation salary records active st) =
      triggerSalaryRecalculation salary records active st ∧
    rowMutations (triggerSalaryRecalculation salary records active st)
      (triggerSalaryRecalculation salary records active
        (triggerSalaryRecalculation salary records active st)) = 0 ∧
    processEmployeeAdjustments salary records active
        (processEmployeeAdjustments salary records active st) =
      processEmployeeAdjustments salary records active st ∧
    rowMutations (processEmployeeAdjustments salary records active st)
      (processEmployeeAdjustments salary records active
        (processEmployeeAdjustments salary records active st)) = 0 := by
  refine ⟨rfl, ?_, rfl, ?_⟩ <;> simp [rowMutations] <;> exact ⟨rfl, rfl⟩

/-! ## Claim C5 -/

/-- Claim C5 counterexample: an identity with monthly salary 0 and three
late days in the month.  `problematicDays = 3 ≥ 3`, so the claim demands
an automatic fine row of amount `(0/30)*(3 div 3) = 0`, but the code only
keeps a fine row when the computed amount is strictly positive, so no
automatic fine row exists after either recompute path. -/
theorem C5_payroll_adjustments_counterexample :
    let r : AttRecord :=
      { dateMidnight := 0,
        shift := some { shift_start := 32400, shift_end := 61200,
                        half_day_hours := 4, present_hours := 8,
                        allowed_late_minutes := 0, enable_late_status := true },
        checkin_time := some 40000, checkout_time := some 70000,
        device_id := none, status := some Status.Present,
        late_duration := none }
    problematicDays [r, r, r] none = 3 ∧
      (triggerSalaryRecalculation 0 [r, r, r] none
        { fineRow := none, bonusRow := none }).fineRow = none ∧
      (processEmployeeAdjustments 0 [r, r, r] none
        { fineRow := none, bonusRow := none }).fineRow = none := by
  intro r
  have hp : problematicDays [r, r, r] none = 3 := by decide
  refine ⟨hp, ?_, ?_⟩ <;>
    norm_num [triggerSalaryRecalculation, processEmployeeAdjustments,
      calculateMonthly, upsertRows, hp]

/-- Claim C5 (amended): after any payroll recompute (reactive trigger or
bulk per-employee pass) over the month's non-{Holiday, Off Day} records,
with problematicDays the count of such days with strictly positive late
duration: the automatic fine row holds exactly
`(monthly_salary/30) * (problematicDays div 3)` when `problematicDays ≥ 3`
AND that amount is strictly positive; the fine row is absent when
`problematicDays < 3` or when the amount is not positive (e.g. a zero
salary); the automatic bonus row holds 1000 exactly when
`problematicDays = 0`, every counted day is `Present`, and at least one
counted day exists, and is absent otherwise. -/
theorem C5_payroll_adjustments (salary : Rat) (records : List AttRecord)
    (active : Option Shift) (st : AdjState) :
    (3 ≤ problematicDays records active →
      0 < (salary / 30) * ((problematicDays records active / 3 : Nat) : Rat) →
      (triggerSalaryRecalculation salary records active st).fineRow =
        some ((salary / 30) * ((problematicDays records active / 3 : Nat) : Rat)) ∧
      (processEmployeeAdjustments salary records active st).fineRow =
        some ((salary / 30) * ((problematicDays records active / 3 : Nat) : Rat))) ∧
    (problematicDays records active < 3 →
      (triggerSalaryRecalculation salary records active st).fineRow = none ∧
      (processEmployeeAdjustments salary records active st).fineRow = none) ∧
    (¬ 0 < (salary / 30) * ((problematicDays records active / 3 : Nat) : Rat) →
      (triggerSalaryRecalculation salary records active st).fineRow = none ∧
      (processEmployeeAdjustments salary records active st).fineRow = none) ∧
    ((problematicDays records active = 0 ∧ allPresent records = true ∧
        0 < totalWorkingDays records) →
      (triggerSalaryRecalculation salary records active st).bonusRow = some 1000 ∧
      (processEmployeeAdjustments salary records active st).bonusRow = some 1000) ∧
    (¬(problematicDays records active = 0 ∧ allPresent records = true ∧
        0 < totalWorkingDays records) →
      (triggerSalaryRecalculation salary records active st).bonusRow = none ∧
      (processEmployeeAdjustments salary records active st).bonusRow = none) := by
  refine ⟨?_, ?_, ?_, ?_, ?_⟩
  · intro h3 hpos
    constructor <;>
      simp [triggerSalaryRecalculation, processEmployeeAdjustments,
        calculateMonthly, upsertRows, h3, hpos]
  · intro hlt
    have h3 : ¬ (3:Nat) ≤ problematicDays records active := by omega
    constructor <;>
      simp [triggerSalaryRecalculation, processEmployeeAdjustments,
        calculateMonthly, upsertRows, h3]
  · intro hpos
    by_cases h3 : (3:Nat) ≤ problematicDays records active
    · constructor <;>
        simp [triggerSalaryRecalculation, processEmployeeAdjustments,
          calculateMonthly, upsertRows, h3, hpos]
    · constructor <;>
        simp [triggerSalaryRecalculation, processEmployeeAdjustments,
          calculateMonthly, upsertRows, h3]
  · rintro ⟨h1, h2, h3⟩
    constructor <;>
      norm_num [triggerSalaryRecalculation, processEmployeeAdjustments,
        calculateMonthly, upsertRows, h1, h2, h3]
  · intro hc
    constructor <;>
      simp [triggerSalaryRecalculation, processEmployeeAdjustments,
        calculateMonthly, upsertRows, hc]

/-- Claim C5 witness: monthly salary 3000 with 4 late days gives an
automatic fine of `(3000/30) * (4 div 3) = 100` and no automatic bonus. -/
theorem C5_payroll_adjustments_witness :
    let r : AttRecord :=
      { dateMidnight := 0,
        shift := some { shift_start := 32400, shift_end := 61200,
                        half_day_hours := 4, present_hours := 8,
                        allowed_late_minutes := 0, enable_late_status := true },
        checkin_time := some 40000, checkout_time := some 70000,
        device_id := none, status := some Status.Present,
        late_duration := none }
    problematicDays [r, r, r, r] none = 4 ∧
      (triggerSalaryRecalculation 3000 [r, r, r, r] none
        { fineRow := none, bonusRow := none }).fineRow = some 100 ∧
      (triggerSalaryRecalculation 3000 [r, r, r, r] none
        { fineRow := none, bonusRow := none }).bonusRow = none := by
  intro r
  have hp : problematicDays [r, r, r, r] none = 4 := by decide
  have h1 := (C5_payroll_adjustments 3000 [r, r, r, r] none
    { fineRow := none, bonusRow := none }).1
    (by rw [hp]; norm_num) (by rw [hp]; norm_num)
  have h2 := (C5_payroll_adjustments 3000 [r, r, r, r] none
    { fineRow := none, bonusRow := none }).2.2.2.2
    (by rw [hp]; simp)
  refine ⟨hp, ?_, h2.1⟩
  have := h1.1
  rw [hp] at this
  norm_num at this
  exact this

/-! ## Claim C4 -/

theorem argminAux_min (ds : List Rat) : ∀ (i best : Nat) (bestd : Rat),
    ∃ v, ((argminAux ds i best bestd = best ∧ v = bestd) ∨
      (∃ k, k < ds.length ∧ argminAux ds i best bestd = i + k ∧
        ds.getD k 0 = v)) ∧
      v ≤ bestd ∧ ∀ x ∈ ds, v ≤ x := by
  induction ds with
  | nil =>
    intro i best bestd
    exact ⟨bestd, Or.inl ⟨rfl, rfl⟩, le_refl _, by simp⟩
  | cons d ds ih =>
    intro i best bestd
    by_cases h : d < bestd
    · obtain ⟨v, hcase, hle, hall⟩ := ih (i + 1) i d
      refine ⟨v, ?_, le_trans hle (le_of_lt h), ?_⟩
      · rcases hcase with ⟨hr, hv⟩ | ⟨k, hk, hr, hv⟩
        · refine Or.inr ⟨0, by simp, ?_, by simpa using hv.symm⟩
          simpa [argminAux, h] using hr
        · refine Or.inr ⟨k + 1, by simpa using hk, ?_, by simpa using hv⟩
          have : argminAux (d :: ds) i best bestd = argminAux ds (i + 1) i d := by
            simp [argminAux, h]
          rw [this, hr]
          omega
      · intro x hx
        rcases List.mem_cons.mp hx with rfl | hx'
        · exact hle
        · exact hall x hx'
    · obtain ⟨v, hcase, hle, hall⟩ := ih (i + 1) best bestd
      refine ⟨v, ?_, hle, ?_⟩
      · rcases hcase with ⟨hr, hv⟩ | ⟨k, hk, hr, hv⟩
        · refine Or.inl ⟨?_, hv⟩
          simpa [argminAux, h] using hr
        · refine Or.inr ⟨k + 1, by simpa using hk, ?_, by simpa using hv⟩
          have : argminAux (d :: ds) i best bestd = argminAux ds (i + 1) best bestd := by
            simp [argminAux, h]
          rw [this, hr]
          omega
      · intro x hx
        rcases List.mem_cons.mp hx with rfl | hx'
        · exact le_trans hle (not_lt.mp h)
        · exact hall x hx'

theorem argminIdx_spec (l : List Rat) (hne : l ≠ []) :
    argminIdx l < l.length ∧
    ∀ j, j < l.length → l.getD (argminIdx l) 0 ≤ l.getD j 0 := by
  match l, hne with
  | d :: ds, _ =>
    have hdef : argminIdx (d :: ds) = argminAux ds 1 0 d := rfl
    obtain ⟨v, hcase, hle, hall⟩ := argminAux_min ds 1 0 d
    have hmemval : ∀ k, k < ds.length → v ≤ ds.getD k 0 := by
      intro k hk
      refine hall _ ?_
      rw [List.getD_eq_getElem _ _ hk]
      exact List.getElem_mem _
    have hcons : ∀ k : Nat, (d :: ds).getD (k + 1) 0 = ds.getD k 0 := by
      intro k
      rfl
    have hzero : (d :: ds).getD 0 0 = d := rfl
    rcases hcase with ⟨hr, hv⟩ | ⟨k, hk, hr, hv⟩
    · rw [hdef, hr]
      refine ⟨by simp, ?_⟩
      intro j hj
      cases j with
      | zero => exact le_refl _
      | succ k' =>
        have hk' : k' < ds.length := by
          simp only [List.length_cons] at hj
          omega
        rw [hzero, hcons k']
        calc d = v := hv.symm
        _ ≤ ds.getD k' 0 := hmemval k' hk'
    · rw [hdef, hr]
      have h1k : (1 + k : Nat) = k + 1 := by omega
      refine ⟨by simp only [List.length_cons]; omega, ?_⟩
      intro j hj
      rw [h1k, hcons k, hv]
      cases j with
      | zero =>
        rw [hzero]
        exact hle
      | succ k' =>
        have hk' : k' < ds.length := by
          simp only [List.length_cons] at hj
          omega
        rw [hcons k']
        exact hmemval k' hk'

theorem anyOfMap {A B : Type} (l : List A) (f : A → B) (p : B → Bool) :
    (l.map f).any p = l.any (fun a => p (f a)) := by
  induction l with
  | nil => rfl
  | cons a l ih => simp [ih]

theorem distances_getD (known : List (List Rat)) (enc : List Rat) (i : Nat)
    (hi : i < known.length) :
    (known.map (fun v => sqDist v enc)).getD i 0 = sqDist (known.getD i []) enc := by
  rw [List.getD_eq_getElem _ _ (by simpa using hi),
    List.getD_eq_getElem _ _ hi, List.getElem_map]

/-- Claim C4: matching a probe against the enrolled registry fails with
`NoEnrollments` on an empty registry; fails with `NotRecognized` when no
enrolled vector is within tolerance of the probe; and otherwise returns
the identity at the minimum-distance index, whose distance is within
tolerance and is a minimum over the whole registry (hence over all
candidates below tolerance). -/
theorem C4_biometric_match (known : List (List Rat)) (emps : List Nat)
    (enc : List Rat) :
    (known = [] →
      findBestMatch known emps enc = Except.error MatchFailure.noEnrollments) ∧
    (known ≠ [] → (∀ v ∈ known, ¬ sqDist v enc ≤ tolSq) →
      findBestMatch known emps enc = Except.error MatchFailure.notRecognized) ∧
    (∀ v ∈ known, sqDist v enc ≤ tolSq →
      ∃ i, i < known.length ∧
        findBestMatch known emps enc = Except.ok (emps.getD i 0) ∧
        sqDist (known.getD i []) enc ≤ tolSq ∧
        ∀ j, j < known.length →
          sqDist (known.getD i []) enc ≤ sqDist (known.getD j []) enc) := by
  refine ⟨?_, ?_, ?_⟩
  · intro h
    subst h
    rfl
  · intro hne hall
    match known, hne with
    | v0 :: ks, _ =>
      have hcond : ¬ ((((v0 :: ks).map (fun v => sqDist v enc)).map
          (fun dd => decide (dd ≤ tolSq))).any (fun m => m) = true) := by
        simp only [anyOfMap]
        rw [List.any_eq_true]
        rintro ⟨x, hx, hdx⟩
        exact hall x hx (by simpa using hdx)
      simp only [findBestMatch]
      rw [if_neg hcond]
  · intro v hv htol
    match known, hv with
    | v0 :: ks, hv =>
      have hcond : (((v0 :: ks).map (fun w => sqDist w enc)).map
          (fun dd => decide (dd ≤ tolSq))).any (fun m => m) = true := by
        simp only [anyOfMap]
        rw [List.any_eq_true]
        exact ⟨v, hv, by simpa using htol⟩
      have hres : findBestMatch (v0 :: ks) emps enc =
          Except.ok (emps.getD
            (argminIdx ((v0 :: ks).map (fun w => sqDist w enc))) 0) := by
        simp only [findBestMatch]
        rw [if_pos hcond]
      obtain ⟨hlt, hmin⟩ := argminIdx_spec ((v0 :: ks).map (fun w => sqDist w enc))
        (by simp)
      have hlen : ((v0 :: ks).map (fun w => sqDist w enc)).length =
          (v0 :: ks).length := by simp
      refine ⟨argminIdx ((v0 :: ks).map (fun w => sqDist w enc)),
        by rw [← hlen]; exact hlt, hres, ?_, ?_⟩
      · obtain ⟨jv, hjv, hjveq⟩ := List.getElem_of_mem hv
        have h1 := hmin jv (by simpa using hjv)
        rw [distances_getD _ _ _ (by rw [← hlen]; exact hlt),
          distances_getD _ _ _ hjv] at h1
        refine le_trans h1 ?_
        rw [List.getD_eq_getElem _ _ hjv, hjveq]
        exact htol
      · intro j hj
        have h1 := hmin j (by simpa using hj)
        rw [distances_getD _ _ _ (by rw [← hlen]; exact hlt),
          distances_getD _ _ _ hj] at h1
        exact h1

/-- Claim C4 witness: three enrolled one-dimensional vectors at Euclidean
distances 0.2, 0.6 and 0.1 from the probe (squared: 1/25, 9/25, 1/100)
with tolerance 0.5 (squared 1/4): the match returns the identity at
distance 0.1 (id 30), the minimum among those under tolerance, not the
0.6 one and not merely the first below threshold. -/
theorem C4_biometric_match_witness :
    findBestMatch [[1/5], [3/5], [1/10]] [10, 20, 30] [0] = Except.ok 30 ∧
    ∃ i, i < 3 ∧
      findBestMatch [[1/5], [3/5], [1/10]] [10, 20, 30] [0] =
        Except.ok ([10, 20, 30].getD i 0) ∧
      sqDist ([[1/5], [3/5], [1/10]].getD i []) [0] ≤ tolSq ∧
      ∀ j, j < 3 →
        sqDist ([[1/5], [3/5], [1/10]].getD i []) [0] ≤
          sqDist ([[1/5], [3/5], [1/10]].getD j []) [0] := by
  constructor
  · have h1 : sqDist [1/5] [0] = 1/25 := by
      norm_num [sqDist]
    have h2 : sqDist [3/5] [0] = 9/25 := by
      norm_num [sqDist]
    have h3 : sqDist [1/10] [0] = 1/100 := by
      norm_num [sqDist]
    have harg : argminIdx [1/25, 9/25, (1/100 : Rat)] = 2 := by
      norm_num [argminIdx, argminAux]
    simp only [findBestMatch, List.map_cons, List.map_nil, h1, h2, h3, harg]
    rw [if_pos]
    · rfl
    · simp only [List.any_cons, List.any_nil, Bool.or_eq_true,
        decide_eq_true_eq]
      refine Or.inl ?_
      norm_num [tolSq]
  · exact (C4_biometric_match [[1/5], [3/5], [1/10]] [10, 20, 30] [0]).2.2
      [1/10] (by simp) (by norm_num [sqDist, tolSq])

/-! ## Helper lemmas for the holiday batch processor -/

theorem holidayEntry_row (e : Nat) (d : Int) (active : Option Shift) :
    holidayEntry e d active =
      { emp := e, day := d,
        row := { dateMidnight := 86400 * d, shift := active,
                 checkin_time := none, checkout_time := none,
                 device_id := none, status := some Status.Holiday,
                 late_duration := none } } := rfl

theorem hasRecord_append (L C : List LEntry) (e : Nat) (d : Int) :
    hasRecord (L ++ C) e d = (hasRecord L e d || hasRecord C e d) := by
  simp [hasRecord, List.any_append]

theorem hasRecord_holidayEntry (e : Nat) (d : Int) (active : Option Shift) :
    hasRecord [holidayEntry e d active] e d = true := by
  simp [hasRecord, holidayEntry]

theorem filter_eq_nil_of_not_has (e : Nat) (d : Int) :
    ∀ L : List LEntry, hasRecord L e d = false →
      L.filter (fun x => x.emp = e && x.day = d) = [] := by
  intro L
  induction L with
  | nil => intro _; rfl
  | cons y L ih =>
    intro h
    rw [hasRecord, List.any_cons, Bool.or_eq_false_iff] at h
    rw [List.filter_cons, h.1]
    exact ih h.2

theorem expandEmps_append (d : Int) (active : Option Shift) :
    ∀ (es : List Nat) (L : List LEntry),
      ∃ C, expandEmps d active es L = L ++ C ∧
        ∀ x ∈ C, x.day = d ∧ x.row.status = some Status.Holiday ∧ x.emp ∈ es := by
  intro es
  induction es with
  | nil =>
    intro L
    exact ⟨[], by simp [expandEmps], by simp⟩
  | cons e es ih =>
    intro L
    by_cases h : hasRecord L e d = true
    · obtain ⟨C, hEq, hprop⟩ := ih L
      refine ⟨C, ?_, ?_⟩
      · rw [expandEmps, if_pos h]
        exact hEq
      · intro x hx
        obtain ⟨h1, h2, h3⟩ := hprop x hx
        exact ⟨h1, h2, List.mem_cons_of_mem e h3⟩
    · obtain ⟨C, hEq, hprop⟩ := ih (L ++ [holidayEntry e d active])
      refine ⟨holidayEntry e d active :: C, ?_, ?_⟩
      · rw [expandEmps, if_neg h, hEq, List.append_assoc]
        rfl
      · intro x hx
        rcases List.mem_cons.mp hx with rfl | hx'
        · exact ⟨rfl, by rw [holidayEntry_row], List.mem_cons_self e es⟩
        · obtain ⟨h1, h2, h3⟩ := hprop x hx'
          exact ⟨h1, h2, List.mem_cons_of_mem e h3⟩

theorem expandDates_append (emps : List Nat) (active : Option Shift) :
    ∀ (dates : List Int) (L : List LEntry),
      ∃ C, expandDates emps active dates L = L ++ C ∧
        ∀ x ∈ C, x.day ∈ dates ∧ x.row.status = some Status.Holiday ∧
          x.emp ∈ emps := by
  intro dates
  induction dates with
  | nil =>
    intro L
    exact ⟨[], by simp [expandDates], by simp⟩
  | cons dd ds ih =>
    intro L
    obtain ⟨C1, h1, p1⟩ := expandEmps_append dd active emps L
    obtain ⟨C2, h2, p2⟩ := ih (expandEmps dd active emps L)
    refine ⟨C1 ++ C2, ?_, ?_⟩
    · rw [expandDates, h2, h1, List.append_assoc]
    · intro x hx
      rcases List.mem_append.mp hx with hx' | hx'
      · obtain ⟨q1, q2, q3⟩ := p1 x hx'
        exact ⟨by rw [q1]; exact List.mem_cons_self dd ds, q2, q3⟩
      · obtain ⟨q1, q2, q3⟩ := p2 x hx'
        exact ⟨List.mem_cons_of_mem dd q1, q2, q3⟩

theorem hasRecord_expandEmps_mono (d' : Int) (active : Option Shift)
    (es : List Nat) (L : List LEntry) (e : Nat) (d : Int)
    (h : hasRecord L e d = true) :
    hasRecord (expandEmps d' active es L) e d = true := by
  obtain ⟨C, hEq, _⟩ := expandEmps_append d' active es L
  rw [hEq, hasRecord_append, h]
  rfl

theorem hasRecord_expandDates_mono (emps : List Nat) (active : Option Shift)
    (dates : List Int) (L : List LEntry) (e : Nat) (d : Int)
    (h : hasRecord L e d = true) :
    hasRecord (expandDates emps active dates L) e d = true := by
  obtain ⟨C, hEq, _⟩ := expandDates_append emps active dates L
  rw [hEq, hasRecord_append, h]
  rfl

theorem hasRecord_expandEmps_self (d : Int) (active : Option Shift) :
    ∀ (es : List Nat) (L : List LEntry) (e : Nat), e ∈ es →
      hasRecord (expandEmps d active es L) e d = true := by
  intro es
  induction es with
  | nil =>
    intro L e he
    cases he
  | cons e' es ih =>
    intro L e he
    by_cases hee : e' = e
    · subst hee
      by_cases h : hasRecord L e' d = true
      · rw [expandEmps, if_pos h]
        exact hasRecord_expandEmps_mono d active es L e' d h
      · rw [expandEmps, if_neg h]
        refine hasRecord_expandEmps_mono d active es _ e' d ?_
        rw [hasRecord_append, hasRecord_holidayEntry]
        simp
    · have he' : e ∈ es := by
        rcases List.mem_cons.mp he with h1 | h1
        · exact absurd h1.symm hee
        · exact h1
      rw [expandEmps]
      split <;> exact ih _ e he'

theorem hasRecord_expandDates_self (emps : List Nat) (active : Option Shift) :
    ∀ (dates : List Int) (L : List LEntry) (e : Nat) (d : Int), e ∈ emps →
      d ∈ dates → hasRecord (expandDates emps active dates L) e d = true := by
  intro dates
  induction dates with
  | nil =>
    intro L e d _ hd
    cases hd
  | cons dd ds ih =>
    intro L e d he hd
    by_cases hdd : dd = d
    · subst hdd
      rw [expandDates]
      exact hasRecord_expandDates_mono emps active ds _ e dd
        (hasRecord_expandEmps_self dd active emps L e he)
    · have hd' : d ∈ ds := by
        rcases List.mem_cons.mp hd with h1 | h1
        · exact absurd h1.symm hdd
        · exact h1
      rw [expandDates]
      exact ih _ e d he hd'

theorem filter_expandEmps_of_has (d' : Int) (active : Option Shift) :
    ∀ (es : List Nat) (L : List LEntry) (e : Nat) (d : Int),
      hasRecord L e d = true →
      (expandEmps d' active es L).filter (fun x => x.emp = e && x.day = d) =
        L.filter (fun x => x.emp = e && x.day = d) := by
  intro es
  induction es with
  | nil =>
    intro L e d _
    rfl
  | cons e' es ih =>
    intro L e d hL
    by_cases h : hasRecord L e' d' = true
    · rw [expandEmps, if_pos h]
      exact ih L e d hL
    · rw [expandEmps, if_neg h]
      have hL' : hasRecord (L ++ [holidayEntry e' d' active]) e d = true := by
        rw [hasRecord_append, hL]
        rfl
      rw [ih _ e d hL', List.filter_append]
      have hsingle : [holidayEntry e' d' active].filter
          (fun x => x.emp = e && x.day = d) = [] := by
        by_cases hee : e' = e
        · by_cases hdd : d' = d
          · subst hee
            subst hdd
            exact absurd hL (by simp [h])
          · simp [List.filter, holidayEntry_row, hdd]
        · simp [List.filter, holidayEntry_row, hee]
      rw [hsingle, List.append_nil]

theorem filter_expandDates_of_has (emps : List Nat) (active : Option Shift) :
    ∀ (dates : List Int) (L : List LEntry) (e : Nat) (d : Int),
      hasRecord L e d = true →
      (expandDates emps active dates L).filter
          (fun x => x.emp = e && x.day = d) =
        L.filter (fun x => x.emp = e && x.day = d) := by
  intro dates
  induction dates with
  | nil =>
    intro L e d _
    rfl
  | cons dd ds ih =>
    intro L e d hL
    rw [expandDates,
      ih _ e d (hasRecord_expandEmps_mono dd active emps L e d hL)]
    exact filter_expandEmps_of_has dd active emps L e d hL

theorem filter_expandEmps_create (d' : Int) (active : Option Shift) :
    ∀ (es : List Nat) (L : List LEntry) (e : Nat), e ∈ es →
      hasRecord L e d' = false →
      (expandEmps d' active es L).filter (fun x => x.emp = e && x.day = d') =
        [holidayEntry e d' active] := by
  intro es
  induction es with
  | nil =>
    intro L e he _
    cases he
  | cons e' es ih =>
    intro L e he hfalse
    by_cases hee : e' = e
    · subst hee
      rw [expandEmps, if_neg (by simp [hfalse])]
      have hnow : hasRecord (L ++ [holidayEntry e' d' active]) e' d' = true := by
        rw [hasRecord_append, hasRecord_holidayEntry]
        simp
      rw [filter_expandEmps_of_has d' active es _ e' d' hnow,
        List.filter_append, filter_eq_nil_of_not_has e' d' L hfalse]
      simp [List.filter, holidayEntry_row]
    · have he' : e ∈ es := by
        rcases List.mem_cons.mp he with h1 | h1
        · exact absurd h1.symm hee
        · exact h1
      by_cases h : hasRecord L e' d' = true
      · rw [expandEmps, if_pos h]
        exact ih L e he' hfalse
      · rw [expandEmps, if_neg h]
        refine ih _ e he' ?_
        rw [hasRecord_append, hfalse]
        simp [hasRecord, holidayEntry_row, hee]

theorem filter_expandDates_create (emps : List Nat) (active : Option Shift) :
    ∀ (dates : List Int) (L : List LEntry) (e : Nat) (d : Int), e ∈ emps →
      d ∈ dates → hasRecord L e d = false →
      (expandDates emps active dates L).filter
          (fun x => x.emp = e && x.day = d) = [holidayEntry e d active] := by
  intro dates
  induction dates with
  | nil =>
    intro L e d _ hd _
    cases hd
  | cons dd ds ih =>
    intro L e d he hd hfalse
    by_cases hdd : dd = d
    · subst hdd
      rw [expandDates]
      have hcov : hasRecord (expandEmps dd active emps L) e dd = true :=
        hasRecord_expandEmps_self dd active emps L e he
      rw [filter_expandDates_of_has emps active ds _ e dd hcov]
      exact filter_expandEmps_create dd active emps L e he hfalse
    · have hd' : d ∈ ds := by
        rcases List.mem_cons.mp hd with h1 | h1
        · exact absurd h1.symm hdd
        · exact h1
      rw [expandDates]
      refine ih _ e d he hd' ?_
      obtain ⟨C, hEq, hprop⟩ := expandEmps_append dd active emps L
      rw [hEq, hasRecord_append, hfalse]
      have : hasRecord C e d = false := by
        rw [hasRecord]
        rw [List.any_eq_false]
        intro x hx
        obtain ⟨q1, _, _⟩ := hprop x hx
        simp [q1, hdd]
      rw [this]
      rfl

theorem expandEmps_of_all (d : Int) (active : Option Shift) :
    ∀ (es : List Nat) (L : List LEntry),
      (∀ e ∈ es, hasRecord L e d = true) → expandEmps d active es L = L := by
  intro es
  induction es with
  | nil =>
    intro L _
    rfl
  | cons e es ih =>
    intro L hall
    rw [expandEmps, if_pos (hall e (List.mem_cons_self e es))]
    exact ih L (fun e' he' => hall e' (List.mem_cons_of_mem e he'))

theorem expandDates_of_all (emps : List Nat) (active : Option Shift) :
    ∀ (dates : List Int) (L : List LEntry),
      (∀ d ∈ dates, ∀ e ∈ emps, hasRecord L e d = true) →
      expandDates emps active dates L = L := by
  intro dates
  induction dates with
  | nil =>
    intro L _
    rfl
  | cons dd ds ih =>
    intro L hall
    rw [expandDates, expandEmps_of_all dd active emps L
      (hall dd (List.mem_cons_self dd ds))]
    exact ih L (fun d' hd' => hall d' (List.mem_cons_of_mem dd hd'))

theorem mem_dateRange (s e d : Int) : d ∈ dateRange s e ↔ s ≤ d ∧ d ≤ e := by
  simp only [dateRange, List.mem_map, List.mem_range]
  constructor
  · rintro ⟨i, hi, rfl⟩
    omega
  · rintro ⟨h1, h2⟩
    exact ⟨(d - s).toNat, by omega, by omega⟩

/-! ## Claim C7 -/

/-- Claim C7 counterexample: a Holiday-status record that existed BEFORE
the expansion (so the expansion creates nothing — the ledger is
unchanged), yet retraction deletes it.  Retraction therefore does not
remove "exactly the Holiday-status records the expansion created": it
removes every in-scope Holiday record, including pre-existing ones. -/
theorem C7_holiday_expand_retract_counterexample :
    let x : LEntry :=
      { emp := 5, day := 7,
        row := { dateMidnight := 604800, shift := none, checkin_time := none,
                 checkout_time := none, device_id := none,
                 status := some Status.Holiday, late_duration := none } }
    processHolidayRecords true [5] 7 7 none [x] = [x] ∧
      removeHolidayRecords [5] 7 7 [x] = [] := by
  intro x
  constructor <;> decide

/-- Claim C7 (amended): expanding an active holiday definition only
appends records — every appended record is a Holiday record for an
in-scope identity and in-range date; after expansion every in-scope
identity has a record on every in-range date; cells that already had a
record are never touched (no overwrite, no duplicate); a vacant in-scope
cell receives exactly one Holiday record; expansion is idempotent.
Retraction removes exactly the records with in-scope identity, in-range
date and status exactly Holiday — including Holiday records predating
the expansion — leaving every other record untouched, and is
idempotent. -/
theorem C7_holiday_expand_retract (emps : List Nat) (startD endD : Int)
    (active : Option Shift) (L : List LEntry) :
    (∃ C, processHolidayRecords true emps startD endD active L = L ++ C ∧
      ∀ x ∈ C, x.row.status = some Status.Holiday ∧ x.emp ∈ emps ∧
        startD ≤ x.day ∧ x.day ≤ endD) ∧
    (∀ e ∈ emps, ∀ d : Int, startD ≤ d → d ≤ endD →
      hasRecord (processHolidayRecords true emps startD endD active L) e d
        = true) ∧
    (∀ e d, hasRecord L e d = true →
      (processHolidayRecords true emps startD endD active L).filter
          (fun x => x.emp = e && x.day = d) =
        L.filter (fun x => x.emp = e && x.day = d)) ∧
    (∀ e d, e ∈ emps → startD ≤ d → d ≤ endD → hasRecord L e d = false →
      (processHolidayRecords true emps startD endD active L).filter
          (fun x => x.emp = e && x.day = d) = [holidayEntry e d active]) ∧
    (processHolidayRecords true emps startD endD active
        (processHolidayRecords true emps startD endD active L) =
      processHolidayRecords true emps startD endD active L) ∧
    (∀ x : LEntry, x ∈ removeHolidayRecords emps startD endD L ↔
      (x ∈ L ∧ ¬(x.emp ∈ emps ∧ startD ≤ x.day ∧ x.day ≤ endD ∧
        x.row.status = some Status.Holiday))) ∧
    (removeHolidayRecords emps startD endD
        (removeHolidayRecords emps startD endD L) =
      removeHolidayRecords emps startD endD L) := by
  have hproc : ∀ M : List LEntry,
      processHolidayRecords true emps startD endD active M =
        expandDates emps active (dateRange startD endD) M := by
    intro M
    rfl
  refine ⟨?_, ?_, ?_, ?_, ?_, ?_, ?_⟩
  · obtain ⟨C, hEq, hprop⟩ :=
      expandDates_append emps active (dateRange startD endD) L
    refine ⟨C, by rw [hproc]; exact hEq, ?_⟩
    intro x hx
    obtain ⟨q1, q2, q3⟩ := hprop x hx
    have := (mem_dateRange startD endD x.day).mp q1
    exact ⟨q2, q3, this.1, this.2⟩
  · intro e he d hd1 hd2
    rw [hproc]
    exact hasRecord_expandDates_self emps active (dateRange startD endD) L e d
      he ((mem_dateRange startD endD d).mpr ⟨hd1, hd2⟩)
  · intro e d h
    rw [hproc]
    exact filter_expandDates_of_has emps active (dateRange startD endD) L e d h
  · intro e d he hd1 hd2 h
    rw [hproc]
    exact filter_expandDates_create emps active (dateRange startD endD) L e d
      he ((mem_dateRange startD endD d).mpr ⟨hd1, hd2⟩) h
  · rw [hproc, hproc]
    refine expandDates_of_all emps active (dateRange startD endD) _ ?_
    intro d hd e he
    exact hasRecord_expandDates_self emps active (dateRange startD endD) L e d
      he hd
  · intro x
    rw [removeHolidayRecords, List.mem_filter]
    have hchar : inHolidayScope emps (dateRange startD endD) x = true ↔
        (x.emp ∈ emps ∧ startD ≤ x.day ∧ x.day ≤ endD ∧
          x.row.status = some Status.Holiday) := by
      simp [inHolidayScope, mem_dateRange, and_assoc]
    constructor
    · rintro ⟨hx, hb⟩
      refine ⟨hx, fun hc => ?_⟩
      rw [Bool.not_eq_true'] at hb
      rw [hchar.mpr hc] at hb
      cases hb
    · rintro ⟨hx, hp⟩
      refine ⟨hx, ?_⟩
      rw [Bool.not_eq_true']
      cases hb : inHolidayScope emps (dateRange startD endD) x
      · rfl
      · exact absurd (hchar.mp hb) hp
  · simp [removeHolidayRecords, List.filter_filter]

/-- Claim C7 witness: a 3-day range (days 10..12) over identities
{1, 2}, with a pre-existing `Present` record for identity 1 on day 10:
the vacant cell (2, 11) receives exactly one Holiday record, and the
pre-existing non-Holiday record survives retraction. -/
theorem C7_holiday_expand_retract_witness :
    let w : LEntry :=
      { emp := 1, day := 10,
        row := { dateMidnight := 864000, shift := none,
                 checkin_time := some 896400, checkout_time := some 925200,
                 device_id := none, status := some Status.Present,
                 late_duration := some 0 } }
    (processHolidayRecords true [1, 2] 10 12 none [w]).filter
        (fun x => x.emp = 2 && x.day = 11) = [holidayEntry 2 11 none] ∧
      w ∈ removeHolidayRecords [1, 2] 10 12 [w] := by
  intro w
  have h := C7_holiday_expand_retract [1, 2] 10 12 none [w]
  refine ⟨h.2.2.2.1 2 11 (by decide) (by decide) (by decide) (by decide), ?_⟩
  exact (h.2.2.2.2.2.1 w).mpr ⟨by decide, by decide⟩

/-- Claim C10 witness: at a concrete month (three late `Present` days,
salary 3000), the mutual-exclusion theorem instantiates to: the
automatic fine row or the automatic bonus row is absent. -/
theorem C10_bonus_fine_mutually_exclusive_witness :
    let r : AttRecord :=
      { dateMidnight := 0,
        shift := some { shift_start := 32400, shift_end := 61200,
                        half_day_hours := 4, present_hours := 8,
                        allowed_late_minutes := 0, enable_late_status := true },
        checkin_time := some 40000, checkout_time := some 70000,
        device_id := none, status := some Status.Present,
        late_duration := none }
    (triggerSalaryRecalculation 3000 [r, r, r] none
        { fineRow := none, bonusRow := none }).fineRow = none ∨
      (triggerSalaryRecalculation 3000 [r, r, r] none
        { fineRow := none, bonusRow := none }).bonusRow = none := by
  intro r
  have h := (C10_bonus_fine_mutually_exclusive 3000 [r, r, r] none
    { fineRow := none, bonusRow := none }).1
  by_contra hc
  push_neg at hc
  exact h ⟨hc.1, hc.2⟩

/-! ## Claim C1 -/

theorem saveRecord_fresh (m : Int) (active : Option Shift) :
    saveRecord (freshRecord m) active true =
      { dateMidnight := m, shift := active, checkin_time := none,
        checkout_time := none, device_id := none,
        status := some Status.Absent, late_duration := none } := rfl

/-- Claim C1 counterexample, two concrete divergences.  (1) A day whose
record carries the manual status `Holiday` (e.g. created by holiday
expansion) and has no check-in: the first biometric event answers IN and
sets the check-in, but the record is NOT classified — its status stays
`Holiday` while the classifier would give `Pending`.  (2) A record with
both check-in and check-out present: an event 30 minutes after check-in
is answered with `cooldown 30`, not with `AlreadyComplete`, because the
cooldown gate fires before the completion check. -/
theorem C1_ledger_state_machine_counterexample :
    let s0 : Shift :=
      { shift_start := 32400, shift_end := 61200, half_day_hours := 4,
        present_hours := 8, allowed_late_minutes := 0,
        enable_late_status := true }
    let rH : AttRecord :=
      { dateMidnight := 0, shift := some s0, checkin_time := none,
        checkout_time := none, device_id := none,
        status := some Status.Holiday, late_duration := none }
    let rC : AttRecord :=
      { dateMidnight := 0, shift := some s0, checkin_time := some 0,
        checkout_time := some 3600, device_id := none,
        status := some Status.Pending, late_duration := some 0 }
    (faceAttendanceApi (some rH) 40000 0 none none =
      (ApiResult.checkIn,
        some { dateMidnight := 0, shift := some s0,
               checkin_time := some 40000, checkout_time := none,
               device_id := none, status := some Status.Holiday,
               late_duration := some 7600 })) ∧
    (computeStatusLate { rH with checkin_time := some 40000 } none).1 =
      Status.Pending ∧
    faceAttendanceApi (some rC) 1800 0 none none =
      (ApiResult.cooldown 30, some rC) := by
  intro s0 rH rC
  refine ⟨?_, ?_, ?_⟩ <;> decide

/-- Claim C1 (amended): the ledger state machine for a recognized
biometric event at instant `T`: (i) with no record for the day, the
response is IN and the persisted record has check-in `T`, the request
device id, and status `Pending`; (ii) with a record lacking a check-in,
the response is IN and the record is persisted with check-in `T` and the
device id through the save pipeline; (iii) with a check-in less than one
hour old — regardless of any check-out — the event is rejected with
`cooldown (60 − ⌊elapsed/60⌋)` minutes remaining and no field changes;
(iv) with a check-in at least one hour old and no check-out, the
response is OUT and check-out `T` is persisted; (v) with both timestamps
present and the check-in at least one hour old, the response is
AlreadyComplete with no mutation.  The save pipeline reclassifies status
via the classifier exactly when the prior status is not manual, and
preserves a manual status verbatim. -/
theorem C1_ledger_state_machine (st : Option AttRecord) (T dateMid : Int)
    (d : Option String) (active : Option Shift) :
    (st = none →
      (faceAttendanceApi st T dateMid d active).1 = ApiResult.checkIn ∧
      ∃ r', (faceAttendanceApi st T dateMid d active).2 = some r' ∧
        r'.checkin_time = some T ∧ r'.device_id = d ∧
        r'.status = some Status.Pending) ∧
    (∀ r, st = some r → r.checkin_time = none →
      faceAttendanceApi st T dateMid d active =
        (ApiResult.checkIn, some (saveRecord
          { r with checkin_time := some T, device_id := devUpdate d r.device_id }
          active false))) ∧
    (∀ r ci, st = some r → r.checkin_time = some ci → T - ci < 3600 →
      faceAttendanceApi st T dateMid d active =
        (ApiResult.cooldown (60 - Int.tdiv (T - ci) 60), some r)) ∧
    (∀ r ci, st = some r → r.checkin_time = some ci →
      r.checkout_time = none → 3600 ≤ T - ci →
      faceAttendanceApi st T dateMid d active =
        (ApiResult.checkOut, some (saveRecord
          { r with checkout_time := some T, device_id := devUpdate d r.device_id }
          active false))) ∧
    (∀ r ci co, st = some r → r.checkin_time = some ci →
      r.checkout_time = some co → 3600 ≤ T - ci →
      faceAttendanceApi st T dateMid d active =
        (ApiResult.alreadyComplete, some r)) ∧
    (∀ rec : AttRecord, (∀ s, rec.status = some s → s ∉ manualStatuses) →
      (saveRecord rec active false).status =
        some (computeStatusLate rec active).1) ∧
    (∀ rec : AttRecord, ∀ s, rec.status = some s → s ∈ manualStatuses →
      (saveRecord rec active false).status = rec.status) := by
  refine ⟨?_, ?_, ?_, ?_, ?_,
    fun rec h => saveRecord_status_not_manual rec active h,
    fun rec s h1 h2 => saveRecord_status_manual rec active false s h1 h2⟩
  · intro h
    subst h
    have hbase := saveRecord_fresh dateMid active
    have hstep : faceAttendanceApi none T dateMid d active =
        (ApiResult.checkIn, some (saveRecord
          { dateMidnight := dateMid, shift := active, checkin_time := some T,
            checkout_time := none, device_id := devUpdate d none,
            status := some Status.Absent, late_duration := none }
          active false)) := by
      simp [faceAttendanceApi, markAttendance, hbase, apiOfCheck]
    rw [hstep]
    refine ⟨rfl, _, rfl, ?_, ?_, ?_⟩
    · rw [saveRecord_checkin_time]
    · rw [saveRecord_device_id]
      cases d <;> rfl
    · rw [saveRecord_status_not_manual _ _ (by intro s hs; cases hs; decide)]
      simp [computeStatusLate]
  · intro r h hci
    subst h
    simp [faceAttendanceApi, markAttendance, hci, apiOfCheck]
  · intro r ci h hci hT
    subst h
    simp [faceAttendanceApi, hci, hT]
  · intro r ci h hci hco hT
    subst h
    have hnot : ¬ (T - ci < 3600) := by omega
    simp [faceAttendanceApi, markAttendance, hci, hco, hnot, apiOfCheck]
  · intro r ci co h hci hco hT
    subst h
    have hnot : ¬ (T - ci < 3600) := by omega
    simp [faceAttendanceApi, markAttendance, hci, hco, hnot, apiOfCheck]

/-- Claim C1 witness: with a record checked in at instant 0, an event 30
minutes later (T = 1800) is rejected with `cooldown 30` and no change,
and an event 61 minutes later (T = 3660) is answered OUT. -/
theorem C1_ledger_state_machine_witness :
    let rW : AttRecord :=
      { dateMidnight := 0, shift := none, checkin_time := some 0,
        checkout_time := none, device_id := none,
        status := some Status.Pending, late_duration := some 0 }
    faceAttendanceApi (some rW) 1800 0 none none =
      (ApiResult.cooldown 30, some rW) ∧
    (faceAttendanceApi (some rW) 3660 0 none none).1 = ApiResult.checkOut := by
  intro rW
  have h3 := (C1_ledger_state_machine (some rW) 1800 0 none none).2.2.1
    rW 0 rfl rfl (by norm_num)
  have h4 := (C1_ledger_state_machine (some rW) 3660 0 none none).2.2.2.1
    rW 0 rfl rfl rfl (by norm_num)
  constructor
  · have hmin : (60 - Int.tdiv (1800 - 0) 60) = 30 := by decide
    rw [hmin] at h3
    exact h3
  · rw [h4]

end AttendanceSys
